import Mathlib

/-!
Verification of the `rp` JUnit-XML report loader (`rp/report.go`).

The Go source is shallowly embedded:
* the XML schema structs (`xmlSuite`, `xmlTest`, `xmlFailure`) become Lean
  structures; the `float64` duration attribute is modelled as a rational
  number of seconds;
* `time.Time` instants are modelled as rationals on a seconds timeline whose
  zero is Go's zero time (0001-01-01T00:00:00);
* the filesystem is passed explicitly: a directory listing is a list of
  entries, and each candidate file carries the outcome of the open / read /
  decode pipeline (`FileData`); a whole-listing failure of `ioutil.ReadDir`
  is `none`;
* Go run-time faults (index out of range, nil-pointer dereference) are made
  observable by totalising the facade accessors with `Option`: a `none`
  result models a panic;
* the helpers `parseTimeStamp` and `secondsToDuration`, the process logger
  and the downstream item/result/log types live in other files of the
  repository that are not part of the analysed sources, so they are
  modelled from the specification (each such definition says so).
-/

/-- Modelled from the spec: the status carried by an `ExecutionResult`
(`PASSED` / `FAILED` / `SKIPPED`); the type itself is owned by the external
reporting layer. -/
inductive ExecutionStatus where
  | passed : ExecutionStatus
  | failed : ExecutionStatus
  | skipped : ExecutionStatus
deriving DecidableEq, Repr

/-- Modelled from the spec: the item kind used by the external reporting
layer (`SUITE` for suites, `STEP` for test cases). -/
inductive TestItemType where
  | suite : TestItemType
  | step : TestItemType
deriving DecidableEq, Repr

/-- Modelled from the spec: the textual form of an item kind, used when the
suite description string is formatted. -/
def TestItemType.str : TestItemType → String
  | .suite => "SUITE"
  | .step => "STEP"

/-- Modelled from the spec: log severities used by the produced log
messages (error for the failure message, info for the failure details). -/
inductive LogLevel where
  | error : LogLevel
  | info : LogLevel
deriving DecidableEq, Repr

/-- Modelled from the spec: the generic test item record handed to the
external reporting layer.  Start times sit on the rational seconds
timeline.  Fields not set by the source keep Go zero values. -/
structure TestItem where
  type : TestItemType
  startTime : ℚ := 0
  name : String := ""
  description : String := ""
deriving DecidableEq, Repr

/-- Modelled from the spec: the generic execution result record (end
instant plus derived status). -/
structure ExecutionResult where
  endTime : ℚ
  status : ExecutionStatus
deriving DecidableEq, Repr

/-- Modelled from the spec: the generic log message record (instant,
severity, text). -/
structure LogMessage where
  time : ℚ
  level : LogLevel
  message : String
deriving DecidableEq, Repr

/-- Embeds `xmlFailure`: the optional `failure` child of a test case. -/
structure xmlFailure where
  type : String
  message : String
  details : String
deriving DecidableEq, Repr

/-- Embeds `xmlTest`: one `testcase` element.  `time` is the duration
attribute in fractional seconds. -/
structure xmlTest where
  name : String
  className : String
  time : ℚ
  failure : Option xmlFailure
deriving DecidableEq, Repr

/-- Embeds `xmlSuite`: one decoded `testsuite` element.  The `XMLName` and
empty `properties` fields carry no data and are dropped. -/
structure xmlSuite where
  id : Int
  name : String
  packageName : String
  timeStamp : String
  time : ℚ
  hostName : String
  tests : Int
  failures : Int
  errors : Int
  cases : List xmlTest
  systemOut : String
  systemErr : String
deriving DecidableEq, Repr

/-- Helper for `parseTimeStamp`: reads a fixed-width decimal field, failing
unless every character is a digit. -/
def numField (cs : List Char) : Option ℕ :=
  if cs.all (fun c => c.isDigit) then
    some (cs.foldl (fun a c => a * 10 + (c.toNat - 48)) 0)
  else none

/-- Gregorian leap-year test, used to validate the day-of-month field. -/
def isLeapYear (y : ℕ) : Bool :=
  (y % 4 = 0 && y % 100 ≠ 0) || y % 400 = 0

/-- Number of days in a month of a given year. -/
def daysInMonth (y m : ℕ) : ℕ :=
  if m = 2 then (if isLeapYear y then 29 else 28)
  else ([0, 31, 0, 31, 30, 31, 30, 31, 31, 30, 31, 30, 31].getD m 0)

/-- Days contained in the months of year `y` preceding month `m`. -/
def daysBeforeMonth (y m : ℕ) : ℕ :=
  let base := [0, 0, 31, 59, 90, 120, 151, 181, 212, 243, 273, 304, 334].getD m 0
  if 2 < m ∧ isLeapYear y then base + 1 else base

/-- Days of the proleptic Gregorian calendar strictly before January 1 of
year `y`, counted from 0001-01-01. -/
def daysBeforeYear (y : ℕ) : ℕ :=
  365 * (y - 1) + (y - 1) / 4 - (y - 1) / 100 + (y - 1) / 400

/-- Modelled from the spec: `parseTimeStamp` (defined outside the analysed
sources) parses the fixed layout `YYYY-MM-DDTHH:MM:SS` (the Go layout
string `2006-01-02T15:04:05`) into an instant, counted here in seconds from
0001-01-01T00:00:00; any malformed timestamp degrades to the zero
instant. -/
def parseTimeStamp (s : String) : ℚ :=
  match s.toList with
  | [a, b, c, d, e, f, g, h, i, j, k, l, m, n, o, p, q, r, u] =>
    if e = '-' && h = '-' && k = 'T' && n = ':' && q = ':' then
      match numField [a, b, c, d], numField [f, g], numField [i, j],
            numField [l, m], numField [o, p], numField [r, u] with
      | some yy, some mo, some dd, some hh, some mi, some ss =>
        if 1 ≤ mo && mo ≤ 12 && 1 ≤ dd && dd ≤ daysInMonth yy mo
            && hh ≤ 23 && mi ≤ 59 && ss ≤ 59 then
          (((daysBeforeYear yy + daysBeforeMonth yy mo + (dd - 1)) * 86400
              + hh * 3600 + mi * 60 + ss : ℕ) : ℚ)
        else 0
      | _, _, _, _, _, _ => 0
    else 0
  | _ => 0

/-- Modelled from the spec: `secondsToDuration` (defined outside the
analysed sources) turns the fractional-seconds duration attribute into a
time span; negative or missing values give the zero span. -/
def secondsToDuration (s : ℚ) : ℚ :=
  if s < 0 then 0 else s

/-- Outcome of the per-file open / read / decode pipeline for one directory
entry, standing in for the file contents the loader would see. -/
inductive FileData where
  | openErr : FileData
  | readErr : FileData
  | decodeErr : FileData
  | decoded : xmlSuite → FileData
deriving DecidableEq, Repr

/-- One entry of a directory listing, as produced by `ioutil.ReadDir`. -/
structure DirEntry where
  name : String
  isDir : Bool
  data : FileData
deriving DecidableEq, Repr

/-- The two error kinds `parseXMLReport` can surface: the guard for an
empty directory argument, and a failure of the directory listing itself. -/
inductive LoadErr where
  | emptyReportDir : LoadErr
  | readDirErr : LoadErr
deriving DecidableEq, Repr

/-- Embeds `filepath.Ext`: the suffix of the name starting at its final
dot, or the empty string when the name has no dot. -/
def filepathExt (s : String) : String :=
  match s.toList.reverse.span (fun c => c ≠ '.') with
  | (_, []) => ""
  | (revSuffix, _ :: _) => String.mk ('.' :: revSuffix.reverse)

/-- The successfully decoded suite of an entry, if its open / read / decode
pipeline succeeded (each failure is logged and skipped in the source). -/
def fileSuite? : FileData → Option xmlSuite
  | .decoded s => some s
  | _ => none

/-- The loop body of `parseXMLReport` over the listing: an entry
contributes its decoded suite unless it is filtered out (extension other
than `.xml`, or a directory) or its pipeline failed. -/
def decodedSuites (files : List DirEntry) : List xmlSuite :=
  files.filterMap (fun f =>
    if filepathExt f.name != ".xml" || f.isDir then none
    else fileSuite? f.data)

/-- Embeds the comparator of the `sort.Slice` call: suite `a` starts
strictly before suite `b`. -/
def suiteLess (a b : xmlSuite) : Bool :=
  decide (parseTimeStamp a.timeStamp < parseTimeStamp b.timeStamp)

/-- Embeds the `sort.Slice` call: a sort of the decoded suites under the
`suiteLess` comparator (the source's sort is unstable; only the resulting
order matters, so it is embedded as a merge sort under the complementary
non-strict comparison). -/
def sortSuites (l : List xmlSuite) : List xmlSuite :=
  l.mergeSort (fun a b => !(suiteLess b a))

/-- Embeds `parseXMLReport`: guard the empty directory string, list the
directory (`fs`), decode the candidate files, and sort by start time. -/
def parseXMLReport (reportDir : String)
    (fs : String → Option (List DirEntry)) : Except LoadErr (List xmlSuite) :=
  if reportDir.length = 0 then .error .emptyReportDir
  else
    match fs reportDir with
    | none => .error .readDirErr
    | some files => .ok (sortSuites (decodedSuites files))

/-- Embeds `XMLReport`: the loaded, sorted suite collection. -/
structure XMLReport where
  xmlSuites : List xmlSuite
deriving DecidableEq, Repr

/-- Embeds `LoadXMLReport`: wrap the parsed collection, or propagate the
error. -/
def LoadXMLReport (dirName : String)
    (fs : String → Option (List DirEntry)) : Except LoadErr XMLReport :=
  match parseXMLReport dirName fs with
  | .error e => .error e
  | .ok report => .ok ⟨report⟩

namespace XMLReport

/-- Embeds `SuitesCount`. -/
def SuitesCount (report : XMLReport) : ℕ :=
  report.xmlSuites.length

/-- Embeds `TesCaseCount`; `none` models the index-out-of-range panic. -/
def TesCaseCount (report : XMLReport) (i : ℕ) : Option ℕ :=
  (report.xmlSuites[i]?).map (fun s => s.cases.length)

/-- Embeds `LaunchStartTime`; `none` models the panic of indexing suite 0
of an empty collection. -/
def LaunchStartTime (report : XMLReport) : Option ℚ :=
  (report.xmlSuites[0]?).map (fun s => parseTimeStamp s.timeStamp)

/-- Embeds `LaunchEndTime`: start of the last suite plus its duration;
`none` models the panic of indexing `len-1` of an empty collection. -/
def LaunchEndTime (report : XMLReport) : Option ℚ :=
  (report.xmlSuites[report.xmlSuites.length - 1]?).map (fun s =>
    parseTimeStamp s.timeStamp + secondsToDuration s.time)

/-- Embeds `Suite`: the suite-level test item. -/
def Suite (report : XMLReport) (i : ℕ) : Option TestItem :=
  (report.xmlSuites[i]?).map (fun s =>
    { type := .suite
      startTime := parseTimeStamp s.timeStamp
      name := s.packageName ++ "." ++ s.name
      description := TestItemType.suite.str ++ " " ++ toString s.id })

/-- Embeds `SuiteResult`: end instant and derived status of a suite. -/
def SuiteResult (report : XMLReport) (i : ℕ) : Option ExecutionResult :=
  (report.xmlSuites[i]?).map (fun s =>
    { endTime := parseTimeStamp s.timeStamp + secondsToDuration s.time
      status :=
        if s.tests = (0 : ℤ) then .skipped
        else if (0 : ℤ) < s.failures then .failed
        else if (0 : ℤ) < s.errors then .failed
        else .passed })

/-- Embeds `TestCase`: the step-level test item of case `j` of suite `i`;
its start instant is the owning suite's start. -/
def TestCase (report : XMLReport) (i j : ℕ) : Option TestItem :=
  (report.xmlSuites[i]?).bind (fun s =>
    (s.cases[j]?).map (fun c =>
      { type := .step
        name := c.name
        startTime := parseTimeStamp s.timeStamp }))

/-- Embeds `TestCaseResult`: end instant and derived status of a case. -/
def TestCaseResult (report : XMLReport) (i j : ℕ) : Option ExecutionResult :=
  (report.xmlSuites[i]?).bind (fun s =>
    (s.cases[j]?).map (fun c =>
      { endTime := parseTimeStamp s.timeStamp + secondsToDuration c.time
        status := if c.failure.isSome then .failed else .passed }))

/-- Embeds `HasTestCaseFailure`. -/
def HasTestCaseFailure (report : XMLReport) (i j : ℕ) : Option Bool :=
  (report.xmlSuites[i]?).bind (fun s =>
    (s.cases[j]?).map (fun c => c.failure.isSome))

/-- Embeds `TestCaseFailure`: the error-level log message built from the
failure message; the inner `none` models the nil-pointer dereference of
`xCase.Failure` when the case carries no failure. -/
def TestCaseFailure (report : XMLReport) (i j : ℕ) : Option LogMessage :=
  (report.xmlSuites[i]?).bind (fun s =>
    (s.cases[j]?).bind (fun c =>
      c.failure.map (fun fl =>
        { time := parseTimeStamp s.timeStamp + secondsToDuration c.time
          level := .error
          message := fl.message })))

/-- Embeds `TestCaseFailureDetails`: the info-level log message built from
the failure details; the inner `none` models the nil-pointer dereference of
`xCase.Failure` when the case carries no failure. -/
def TestCaseFailureDetails (report : XMLReport) (i j : ℕ) : Option LogMessage :=
  (report.xmlSuites[i]?).bind (fun s =>
    (s.cases[j]?).bind (fun c =>
      c.failure.map (fun fl =>
        { time := parseTimeStamp s.timeStamp + secondsToDuration c.time
          level := .info
          message := fl.details })))

end XMLReport

/-! ## File-handle trace model

The loop of `parseXMLReport` opens each candidate file and registers
`defer xmlFile.Close()`.  A deferred call runs when the surrounding
function returns, not when the loop iteration ends, so the model keeps a
defer stack and appends it (in LIFO order) to the event trace at function
return. -/

/-- An observable file-handle event of the loader. -/
inductive FEvent where
  | openFile : String → FEvent
  | closeFile : String → FEvent
deriving DecidableEq, Repr

/-- One loop iteration of `parseXMLReport`, tracking the emitted open
events and the stack of deferred closes.  Entries that fail the
extension/directory filter are skipped without touching a file; an entry
whose open fails acquires no handle (the deferred close on the nil handle
is a no-op). -/
def handleStep (acc : List FEvent × List FEvent) (f : DirEntry) :
    List FEvent × List FEvent :=
  if filepathExt f.name != ".xml" || f.isDir then acc
  else
    match f.data with
    | .openErr => acc
    | _ => (acc.1 ++ [.openFile f.name], .closeFile f.name :: acc.2)

/-- The file-handle event trace of one `parseXMLReport` call over a
listing: the loop's open events followed by the deferred closes, which run
in LIFO order when the function returns. -/
def loadTrace (files : List DirEntry) : List FEvent :=
  let r := files.foldl handleStep ([], [])
  r.1 ++ r.2

/-- After a file was opened, scans forward for its close event, failing if
another open happens first. -/
def closedBeforeNextOpen (nm : String) : List FEvent → Bool
  | [] => true
  | .openFile _ :: _ => false
  | .closeFile m :: rest => if m = nm then true else closedBeforeNextOpen nm rest

/-- Holds when every opened file is closed again before the next file is
opened. -/
def releasedBeforeNextOpen : List FEvent → Bool
  | [] => true
  | .closeFile _ :: rest => releasedBeforeNextOpen rest
  | .openFile nm :: rest => closedBeforeNextOpen nm rest && releasedBeforeNextOpen rest

/-! ## Concrete fixtures used by the witness theorems -/

/-- A sample failure payload. -/
def demoFailure : xmlFailure := ⟨"AssertionError", "boom", "stack trace"⟩

/-- A passing test case (no failure child), duration 2 s. -/
def demoCasePass : xmlTest := ⟨"testOk", "p.T", 2, none⟩

/-- A failing test case, duration 3 s. -/
def demoCaseFail : xmlTest := ⟨"testBad", "p.T", 3, some demoFailure⟩

/-- A suite starting at instant 10 with duration 100 s (so its interval
ends at 110), two cases, one failure. -/
def demoSuiteA : xmlSuite :=
  ⟨1, "A", "p", "0001-01-01T00:00:10", 100, "host", 2, 1, 0,
    [demoCasePass, demoCaseFail], "", ""⟩

/-- A suite starting at instant 20 with duration 5 s (interval end 25),
zero tests but nonzero failure/error counters. -/
def demoSuiteB : xmlSuite :=
  ⟨2, "B", "p", "0001-01-01T00:00:20", 5, "host", 0, 1, 2, [], "", ""⟩

/-- A loaded two-suite report in sorted order. -/
def demoReport2 : XMLReport := ⟨[demoSuiteA, demoSuiteB]⟩

/-- Listing entry holding `demoSuiteA`. -/
def entryA : DirEntry := ⟨"a.xml", false, .decoded demoSuiteA⟩

/-- Listing entry holding `demoSuiteB`. -/
def entryB : DirEntry := ⟨"b.xml", false, .decoded demoSuiteB⟩

/-- A regular file whose extension is not `.xml`. -/
def entryTxt : DirEntry := ⟨"notes.txt", false, .decoded demoSuiteB⟩

/-- A `.xml` file whose contents fail to decode. -/
def entryBad : DirEntry := ⟨"bad.xml", false, .decodeErr⟩

/-- A subdirectory whose name ends in `.xml`. -/
def entrySub : DirEntry := ⟨"sub.xml", true, .decoded demoSuiteA⟩

/-! ## Helper lemmas -/

/-- A string of length zero is the empty string. -/
theorem string_eq_empty_of_length_zero {s : String} (h : s.length = 0) :
    s = "" := by
  cases s with
  | mk data =>
    cases data with
    | nil => rfl
    | cons c cs => simp [String.length] at h

/-- The comparator complement used by the embedded sort is transitive. -/
theorem suiteLE_trans (a b c : xmlSuite)
    (hab : (!(suiteLess b a)) = true) (hbc : (!(suiteLess c b)) = true) :
    (!(suiteLess c a)) = true := by
  simp only [suiteLess, Bool.not_eq_true', decide_eq_false_iff_not, not_lt] at hab hbc ⊢
  exact le_trans hab hbc

/-- The comparator complement used by the embedded sort is total. -/
theorem suiteLE_total (a b : xmlSuite) :
    ((!(suiteLess b a)) || (!(suiteLess a b))) = true := by
  simp only [suiteLess, Bool.or_eq_true, Bool.not_eq_true', decide_eq_false_iff_not, not_lt]
  exact le_total _ _

/-- Whatever list of decoded suites the loop produced, the final sort
leaves it pairwise ordered by parsed start time. -/
theorem sortSuites_pairwise (m : List xmlSuite) :
    List.Pairwise
      (fun a b => parseTimeStamp a.timeStamp ≤ parseTimeStamp b.timeStamp)
      (sortSuites m) := by
  have hp := List.sorted_mergeSort suiteLE_trans suiteLE_total m
  refine hp.imp ?_
  intro a b hab
  simpa only [suiteLess, Bool.not_eq_true', decide_eq_false_iff_not, not_lt] using hab

/-- C1: after a successful `Load`, adjacent suites of the returned
collection are in non-decreasing order of parsed start time, whatever
order the directory listing presented the files in. -/
theorem load_result_sorted_by_start (dir : String)
    (fs : String → Option (List DirEntry)) (l : List xmlSuite)
    (h : parseXMLReport dir fs = .ok l) :
    List.Chain'
      (fun a b => parseTimeStamp a.timeStamp ≤ parseTimeStamp b.timeStamp) l := by
  by_cases hd : dir.length = 0
  · simp [parseXMLReport, hd] at h
  · cases hfs : fs dir with
    | none => simp [parseXMLReport, hd, hfs] at h
    | some files =>
      simp only [parseXMLReport, hd, if_false, hfs, Except.ok.injEq] at h
      subst h
      exact (sortSuites_pairwise _).chain'

unseal List.merge List.mergeSort in
/-- C1 witness: a listing presenting the later suite first still loads
sorted; the concrete result is the reordered pair. -/
theorem load_result_sorted_by_start_witness :
    List.Chain'
      (fun a b => parseTimeStamp a.timeStamp ≤ parseTimeStamp b.timeStamp)
      (sortSuites (decodedSuites [entryB, entryA])) ∧
    sortSuites (decodedSuites [entryB, entryA]) = [demoSuiteA, demoSuiteB] :=
  ⟨load_result_sorted_by_start "reports" (fun _ => some [entryB, entryA]) _ rfl,
   rfl⟩

/-- C2: for an in-range suite index, `SuiteResult` ends at the suite's
parsed start plus its duration, and its status is SKIPPED when the test
counter is zero (whatever the failure and error counters say), otherwise
FAILED when failures or errors are positive, otherwise PASSED. -/
theorem suiteResult_correct (report : XMLReport) (i : ℕ) (s : xmlSuite)
    (h : report.xmlSuites[i]? = some s) :
    report.SuiteResult i = some
      { endTime := parseTimeStamp s.timeStamp + secondsToDuration s.time
        status :=
          if s.tests = (0 : ℤ) then .skipped
          else if (0 : ℤ) < s.failures ∨ (0 : ℤ) < s.errors then .failed
          else .passed } := by
  simp only [XMLReport.SuiteResult, h, Option.map_some', Option.some.injEq]
  by_cases h0 : s.tests = (0 : ℤ) <;>
    by_cases h1 : (0 : ℤ) < s.failures <;>
    by_cases h2 : (0 : ℤ) < s.errors <;>
    simp [h0, h1, h2]

/-- C2 witness: a suite with zero tests but positive failure and error
counters is SKIPPED, and its end instant is start (20) plus duration
(5). -/
theorem suiteResult_correct_witness :
    (XMLReport.mk [demoSuiteB]).xmlSuites[0]? = some demoSuiteB ∧
    (XMLReport.mk [demoSuiteB]).SuiteResult 0 =
      some ⟨25, ExecutionStatus.skipped⟩ := by
  refine ⟨rfl, ?_⟩
  rw [suiteResult_correct (XMLReport.mk [demoSuiteB]) 0 demoSuiteB rfl]
  have hts : parseTimeStamp "0001-01-01T00:00:20" = ((20 : ℕ) : ℚ) := rfl
  norm_num [hts, demoSuiteB, secondsToDuration]

/-- C3: for an in-range case index, the step item's start instant is the
owning suite's parsed start, and the case result ends at the suite start
plus the case duration, FAILED exactly when the case carries a failure and
PASSED otherwise. -/
theorem testCase_correct (report : XMLReport) (i j : ℕ) (s : xmlSuite)
    (c : xmlTest) (hs : report.xmlSuites[i]? = some s)
    (hc : s.cases[j]? = some c) :
    report.TestCase i j = some
      { type := .step
        startTime := parseTimeStamp s.timeStamp
        name := c.name
        description := "" } ∧
    report.TestCaseResult i j = some
      { endTime := parseTimeStamp s.timeStamp + secondsToDuration c.time
        status := if c.failure.isSome then .failed else .passed } := by
  constructor <;>
    simp [XMLReport.TestCase, XMLReport.TestCaseResult, hs, hc]

/-- C3 witness: the failing case of the first demo suite starts at the
suite start (10), ends at 10 + 3, and is FAILED. -/
theorem testCase_correct_witness :
    demoReport2.xmlSuites[0]? = some demoSuiteA ∧
    demoSuiteA.cases[1]? = some demoCaseFail ∧
    demoReport2.TestCase 0 1 = some
      { type := .step, startTime := 10, name := "testBad", description := "" } ∧
    demoReport2.TestCaseResult 0 1 = some ⟨13, ExecutionStatus.failed⟩ := by
  have h := testCase_correct demoReport2 0 1 demoSuiteA demoCaseFail rfl rfl
  refine ⟨rfl, rfl, ?_, ?_⟩
  · rw [h.1]
    have hts : parseTimeStamp "0001-01-01T00:00:10" = ((10 : ℕ) : ℚ) := rfl
    norm_num [hts, demoSuiteA, demoCaseFail]
  · rw [h.2]
    have hts : parseTimeStamp "0001-01-01T00:00:10" = ((10 : ℕ) : ℚ) := rfl
    norm_num [hts, demoSuiteA, demoCaseFail, demoFailure, secondsToDuration]

/-- C4: for a non-empty report, `LaunchEndTime` is the parsed start of the
last suite of the sorted collection plus that suite's own duration. -/
theorem launchEndTime_correct (report : XMLReport) (s : xmlSuite)
    (h : report.xmlSuites.getLast? = some s) :
    report.LaunchEndTime =
      some (parseTimeStamp s.timeStamp + secondsToDuration s.time) := by
  unfold XMLReport.LaunchEndTime
  rw [← List.getLast?_eq_getElem?, h, Option.map_some']

/-- C4 witness: in the demo report the last suite ends at 25 while the
earlier suite's own interval ends at 110, and `LaunchEndTime` is still
25 — the last suite's end, not the maximum. -/
theorem launchEndTime_correct_witness :
    demoReport2.xmlSuites.getLast? = some demoSuiteB ∧
    demoReport2.LaunchEndTime = some 25 ∧
    parseTimeStamp demoSuiteA.timeStamp + secondsToDuration demoSuiteA.time
      = 110 ∧ (25 : ℚ) < 110 := by
  refine ⟨rfl, ?_, ?_, by norm_num⟩
  · rw [launchEndTime_correct demoReport2 demoSuiteB rfl]
    have hts : parseTimeStamp "0001-01-01T00:00:20" = ((20 : ℕ) : ℚ) := rfl
    norm_num [hts, demoSuiteB, secondsToDuration]
  · have hts : parseTimeStamp "0001-01-01T00:00:10" = ((10 : ℕ) : ℚ) := rfl
    norm_num [hts, demoSuiteA, secondsToDuration]

/-- C5: loading from the empty directory-path string fails with the
dedicated empty-directory error kind, which is distinct from the
filesystem error kind, and returns no collection. -/
theorem load_empty_path_fails (fs : String → Option (List DirEntry)) :
    LoadXMLReport "" fs = .error .emptyReportDir ∧
    LoadErr.emptyReportDir ≠ LoadErr.readDirErr :=
  ⟨rfl, by decide⟩

/-- C6: for a non-empty directory path, `Load` fails exactly when the
directory listing itself fails; when the listing succeeds, the call
succeeds and returns exactly the sorted suites decoded from the files that
survive the filter and the open / read / decode pipeline. -/
theorem load_fails_iff_listing_fails (dir : String)
    (fs : String → Option (List DirEntry)) (hdir : dir ≠ "") :
    ((∃ e, LoadXMLReport dir fs = .error e) ↔ fs dir = none) ∧
    ∀ files, fs dir = some files →
      LoadXMLReport dir fs = .ok ⟨sortSuites (decodedSuites files)⟩ := by
  have hlen : ¬ dir.length = 0 := fun h0 =>
    hdir (string_eq_empty_of_length_zero h0)
  refine ⟨⟨?_, ?_⟩, ?_⟩
  · rintro ⟨e, he⟩
    cases hfs : fs dir with
    | none => rfl
    | some files => simp [LoadXMLReport, parseXMLReport, hlen, hfs] at he
  · intro hfs
    exact ⟨.readDirErr, by simp [LoadXMLReport, parseXMLReport, hlen, hfs]⟩
  · intro files hfs
    simp [LoadXMLReport, parseXMLReport, hlen, hfs]

unseal List.merge List.mergeSort in
/-- C6 witness: one malformed and one well-formed file load without a
call-level error into a single-suite collection. -/
theorem load_fails_iff_listing_fails_witness :
    LoadXMLReport "reports" (fun _ => some [entryBad, entryA]) =
      .ok ⟨[demoSuiteA]⟩ ∧
    (XMLReport.mk [demoSuiteA]).SuitesCount = 1 := by
  have h := (load_fails_iff_listing_fails "reports"
    (fun _ => some [entryBad, entryA]) (by decide)).2 [entryBad, entryA] rfl
  exact ⟨h.trans rfl, rfl⟩

/-- C7: a listing entry that is a directory, or whose name's extension is
not the exact case-sensitive string `.xml`, contributes neither a suite
nor an error: the load result over a listing containing it equals the load
result over the same listing with the entry removed. -/
theorem skipped_entry_contributes_nothing (f : DirEntry)
    (hskip : f.isDir = true ∨ filepathExt f.name ≠ ".xml")
    (dir : String) (fsA fsB : String → Option (List DirEntry))
    (l1 l2 : List DirEntry)
    (hA : fsA dir = some (l1 ++ f :: l2)) (hB : fsB dir = some (l1 ++ l2)) :
    parseXMLReport dir fsA = parseXMLReport dir fsB := by
  by_cases hd : dir.length = 0
  · simp [parseXMLReport, hd]
  · have hcond : (filepathExt f.name != ".xml" || f.isDir) = true := by
      rcases hskip with h | h
      · simp [h]
      · simp [bne_iff_ne, h]
    simp only [parseXMLReport, hd, if_false, hA, hB]
    congr 2
    unfold decodedSuites
    rw [List.filterMap_append, List.filterMap_append, List.filterMap_cons]
    simp [hcond]

unseal List.merge List.mergeSort in
/-- C7 witness: a well-formed `.xml` file next to a `.txt` file loads the
same single-suite collection as the `.xml` file alone. -/
theorem skipped_entry_contributes_nothing_witness :
    parseXMLReport "reports" (fun _ => some [entryA, entryTxt]) =
      parseXMLReport "reports" (fun _ => some [entryA]) ∧
    parseXMLReport "reports" (fun _ => some [entryA, entryTxt]) =
      .ok [demoSuiteA] := by
  have h := skipped_entry_contributes_nothing entryTxt (Or.inr (by decide))
    "reports" (fun _ => some [entryA, entryTxt]) (fun _ => some [entryA])
    [entryA] [] rfl rfl
  exact ⟨h, h.trans rfl⟩

/-- C8 (refuted by the source): on a listing with two well-formed files
the loader opens the second file before the first is closed; every close
is deferred to function return and runs there in LIFO order, because
`defer xmlFile.Close()` inside the loop registers the close on the
function's defer stack. -/
theorem deferred_close_runs_at_return :
    loadTrace [entryA, entryB] =
      [.openFile "a.xml", .openFile "b.xml",
       .closeFile "b.xml", .closeFile "a.xml"] ∧
    releasedBeforeNextOpen (loadTrace [entryA, entryB]) = false :=
  ⟨rfl, rfl⟩

/-- C9: whenever `HasTestCaseFailure` answers `false` for an in-range case,
`TestCaseFailureDetails` faults (the nil `Failure` pointer dereference,
modelled as `none`) instead of returning any log message. -/
theorem details_fault_without_failure (report : XMLReport) (i j : ℕ)
    (h : report.HasTestCaseFailure i j = some false) :
    report.TestCaseFailureDetails i j = none := by
  unfold XMLReport.HasTestCaseFailure at h
  unfold XMLReport.TestCaseFailureDetails
  cases hs : report.xmlSuites[i]? with
  | none => simp [hs] at h
  | some s =>
    cases hc : s.cases[j]? with
    | none => simp [hs, hc] at h
    | some c =>
      simp only [hs, hc, Option.some_bind] at h ⊢
      cases hcf : c.failure with
      | none => simp
      | some fl => simp [hcf] at h

/-- C9 witness: the passing case of the demo report has no failure and its
details accessor faults. -/
theorem details_fault_without_failure_witness :
    demoReport2.HasTestCaseFailure 0 0 = some false ∧
    demoReport2.TestCaseFailureDetails 0 0 = none :=
  ⟨rfl, details_fault_without_failure demoReport2 0 0 rfl⟩

/-- C10: loading a readable directory with no decodable `.xml` files
succeeds with an empty collection (`SuitesCount` 0), and on that empty
report both launch-time accessors fault (indexing an empty collection,
modelled as `none`). -/
theorem empty_load_launch_faults (dir : String)
    (fs : String → Option (List DirEntry)) (files : List DirEntry)
    (hdir : dir ≠ "") (hfs : fs dir = some files)
    (hnone : decodedSuites files = []) :
    LoadXMLReport dir fs = .ok ⟨[]⟩ ∧
    (XMLReport.mk []).SuitesCount = 0 ∧
    (XMLReport.mk []).LaunchStartTime = none ∧
    (XMLReport.mk []).LaunchEndTime = none := by
  have hlen : ¬ dir.length = 0 := fun h0 =>
    hdir (string_eq_empty_of_length_zero h0)
  refine ⟨?_, rfl, rfl, rfl⟩
  simp [LoadXMLReport, parseXMLReport, hlen, hfs, hnone, sortSuites]

/-- C10 witness: a listing holding a `.txt` file, a `.xml`-named
subdirectory and an undecodable `.xml` file loads as the empty report, on
which both launch-time accessors fault. -/
theorem empty_load_launch_faults_witness :
    LoadXMLReport "reports" (fun _ => some [entryTxt, entrySub, entryBad]) =
      .ok ⟨[]⟩ ∧
    (XMLReport.mk []).SuitesCount = 0 ∧
    (XMLReport.mk []).LaunchStartTime = none ∧
    (XMLReport.mk []).LaunchEndTime = none :=
  empty_load_launch_faults "reports" (fun _ => some [entryTxt, entrySub, entryBad])
    [entryTxt, entrySub, entryBad] (by decide) rfl rfl
